import Mathlib

/-!
Shallow embedding of the invoice-text extraction engine of
`function_app.py` (the `extract_structured_data` routine and its helpers
`_extract_billing_details` and `_extract_payment_details`), together with
theorems settling the specification claims about it.

All Python string primitives are re-implemented by structural recursion on
character lists so that every definition evaluates inside the kernel.
-/

namespace InvoiceExtract

/-- The whitespace set of Python `str.strip()` restricted to ASCII
(space, tab, newline, carriage return, vertical tab, form feed). -/
def pyIsSpace (c : Char) : Bool :=
  c = ' ' || c = '\t' || c = '\n' || c = '\r' || c = '\x0b' || c = '\x0c'

/-- Remove leading and trailing whitespace characters from a character list. -/
def stripList (l : List Char) : List Char :=
  ((l.dropWhile pyIsSpace).reverse.dropWhile pyIsSpace).reverse

/-- Python `s.strip()`. -/
def pyStrip (s : String) : String :=
  String.mk (stripList s.toList)

/-- Contiguous-sublist test on character lists. -/
def infixOf (sub : List Char) : List Char → Bool
  | [] => sub.isEmpty
  | c :: cs => sub.isPrefixOf (c :: cs) || infixOf sub cs

/-- Python `sub in s` (substring containment). -/
def pyIn (sub s : String) : Bool :=
  infixOf sub.toList s.toList

/-- Python `s.startswith(p)`. -/
def pyStartsWith (s p : String) : Bool :=
  p.toList.isPrefixOf s.toList

/-- Python `s.lower()` (ASCII case folding, the only case used here). -/
def pyLower (s : String) : String :=
  String.mk (s.toList.map Char.toLower)

/-- Python `s.replace(":", "")`: delete every colon character. -/
def pyRemoveColons (s : String) : String :=
  String.mk (s.toList.filter (fun c => c ≠ ':'))

/-- Python `s.isdigit()` (ASCII digits): nonempty and all characters digits. -/
def pyIsDigit (s : String) : Bool :=
  !s.toList.isEmpty && s.toList.all (fun c => c.isDigit)

/-- Python `any(ch.isdigit() for ch in s)`. -/
def pyHasDigit (s : String) : Bool :=
  s.toList.any (fun c => c.isDigit)

/-- Fuel-driven worker for Python `s.split(sep)` with a nonempty separator:
scan left to right, cutting at each non-overlapping occurrence of `sep`.
The fuel is an upper bound on the number of characters consumed; with fuel
`≥ length + 1` it never runs out. -/
def pySplitAux (sep : List Char) : Nat → List Char → List Char → List (List Char)
  | 0, s, acc => [acc.reverse ++ s]
  | Nat.succ fuel, s, acc =>
    match s with
    | [] => [acc.reverse]
    | c :: cs =>
      if sep.isPrefixOf (c :: cs) then
        acc.reverse :: pySplitAux sep fuel (List.drop sep.length (c :: cs)) []
      else
        pySplitAux sep fuel cs (c :: acc)

/-- Python `s.split(sep)` for a nonempty separator. -/
def pySplit (s sep : String) : List String :=
  (pySplitAux sep.toList (s.toList.length + 1) s.toList []).map String.mk

/-- Python `s.split(" ", 1)`: split at the first space only. -/
def pySplitOnce (s : String) : List String :=
  let cs := s.toList
  if cs.contains ' ' then
    [String.mk (cs.takeWhile (fun c => c ≠ ' ')),
     String.mk ((cs.dropWhile (fun c => c ≠ ' ')).drop 1)]
  else [s]

/-- Python `" ".join(l)`. -/
def pyJoinSpace : List String → String
  | [] => ""
  | [x] => x
  | x :: y :: xs => x ++ " " ++ pyJoinSpace (y :: xs)

/-- Python `l[-n:]`: the last `n` elements of a list. -/
def lastN (n : Nat) (l : List String) : List String :=
  l.drop (l.length - n)

/-- Line normalization of `extract_structured_data`:
`[line.strip() for line in content.split('\n') if line.strip()]`. -/
def normalize (content : String) : List String :=
  ((pySplit content "\n").map pyStrip).filter (fun l => l ≠ "")

/-! ## The output data model (`data` dictionary of the source) -/

structure CompanyInfo where
  address : Option String
  vat_number : Option String
deriving DecidableEq

structure CustomerInfo where
  address : Option String
deriving DecidableEq

structure InvoiceDetails where
  number : Option String
  date : Option String
  due_date : Option String
deriving DecidableEq

structure Reading where
  value : String
  date : String
deriving DecidableEq

structure MeterReading where
  type : String
  serial_number : String
  start_reading : Reading
  end_reading : Reading
deriving DecidableEq

structure BillingDetails where
  period : Option String
  rate : Option String
  consumption : Option String
  net_cost : Option String
  vat : Option String
  total : Option String
deriving DecidableEq

structure PaymentDetails where
  account_name : Option String
  sort_code : Option String
  account_number : Option String
deriving DecidableEq

structure InvoiceRecord where
  company_info : CompanyInfo
  customer_info : CustomerInfo
  invoice_details : InvoiceDetails
  meter_readings : List MeterReading
  billing_details : BillingDetails
  payment_details : PaymentDetails
  extraction_error : Option String
deriving DecidableEq

/-- The freshly initialized `data` dictionary: six empty sections. -/
def emptyRecord : InvoiceRecord :=
  { company_info := { address := none, vat_number := none }
    customer_info := { address := none }
    invoice_details := { number := none, date := none, due_date := none }
    meter_readings := []
    billing_details :=
      { period := none, rate := none, consumption := none
        net_cost := none, vat := none, total := none }
    payment_details :=
      { account_name := none, sort_code := none, account_number := none }
    extraction_error := none }

/-! ## Section 1: company address and VAT number (source lines 78-89) -/

/-- The scan loop: accumulate lines until one contains `"VAT No."`; on the
marker line compute `line.split("VAT No.")[-1].strip().replace(":", "")`
and stop.  Returns the accumulated address buffer and the optional raw VAT
string. -/
def companyScan : List String → List String × Option String
  | [] => ([], none)
  | l :: ls =>
    if pyIn "VAT No." l then
      ([], some (pyRemoveColons (pyStrip ((pySplit l "VAT No.").getLastD ""))))
    else
      let r := companyScan ls
      (l :: r.1, r.2)

/-- Assemble `company_info`: `if company_address:` emits the space-join of
the last 4 buffered lines; `if vat_number:` emits the VAT string when
truthy (non-`None` and nonempty). -/
def companyInfoOf (lines : List String) : CompanyInfo :=
  let r := companyScan lines
  { address := if r.1 = [] then none else some (pyJoinSpace (lastN 4 r.1))
    vat_number :=
      match r.2 with
      | some v => if v = "" then none else some v
      | none => none }

/-! ## Section 2: customer address (source lines 91-105) -/

/-- The inner `while` loop: collect nonempty lines until one starts with a
sentinel heading. -/
def customerTake : List String → List String
  | [] => []
  | l :: ls =>
    if pyStartsWith l "Bill Payer Address" ||
       pyStartsWith l "Invoice Number" ||
       pyStartsWith l "Meter Serial Numbers" then []
    else if l = "" then customerTake ls
    else l :: customerTake ls

/-- Find the first line containing `"Address Where Meter Installed:"`,
collect the following buffer, and emit it if nonempty (the loop `break`s
after the first marker). -/
def customerScan : List String → Option String
  | [] => none
  | l :: ls =>
    if pyIn "Address Where Meter Installed:" l then
      let buf := customerTake ls
      if buf = [] then none else some (pyJoinSpace buf)
    else customerScan ls

def customerInfoOf (lines : List String) : CustomerInfo :=
  { address := customerScan lines }

/-! ## Section 3: invoice details (source lines 107-114) -/

/-- One loop iteration of the invoice-details pass: an `if`/`elif` chain,
so at most one branch fires per line.  `ls` is the remainder after the
current line, so `i + 1 < len(lines)` is `ls ≠ []` and `lines[i + 1]` is
`ls.headD ""`. -/
def invStep (d : InvoiceDetails) (l : String) (ls : List String) : InvoiceDetails :=
  if pyIn "Invoice Number:" l && !ls.isEmpty then
    { d with number := some (pyStrip (ls.headD "")) }
  else if pyIn "Invoice Date:" l && !ls.isEmpty then
    { d with date := some (pyStrip (ls.headD "")) }
  else if pyIn "Payment Due Date:" l && !ls.isEmpty then
    { d with due_date := some (pyStrip (ls.headD "")) }
  else d

def invoiceScan (d : InvoiceDetails) : List String → InvoiceDetails
  | [] => d
  | l :: ls => invoiceScan (invStep d l ls) ls

def invoiceDetailsOf (lines : List String) : InvoiceDetails :=
  invoiceScan { number := none, date := none, due_date := none } lines

/-! ## Section 4: meter readings (source lines 116-140) -/

def monthAbbrevs : List String :=
  ["Jan", "Feb", "Mar", "Apr", "May", "Jun",
   "Jul", "Aug", "Sep", "Oct", "Nov", "Dec"]

/-- One candidate block: fires when the current line is all digits and at
least five further lines exist (`i + 5 < len(lines)`).  Applies the
date-bleed correction when `end_value` contains a month abbreviation and
splits into exactly two parts, then emits the entry only for meter types
`"generation"` or `"export"`. -/
def meterBlock (l : String) (ls : List String) : List MeterReading :=
  if pyIsDigit l && decide (5 ≤ ls.length) then
    let meter_type := pyLower (pyStrip (ls.getD 0 ""))
    let start_value := pyStrip (ls.getD 1 "")
    let start_date := pyStrip (ls.getD 2 "")
    let end_value := pyStrip (ls.getD 3 "")
    let end_date := pyStrip (ls.getD 4 "")
    let p :=
      if monthAbbrevs.any (fun m => pyIn m end_value) then
        match pySplitOnce end_value with
        | [a, b] => (a, b)
        | _ => (end_value, end_date)
      else (end_value, end_date)
    if meter_type = "generation" || meter_type = "export" then
      [{ type := meter_type, serial_number := l
         start_reading := { value := start_value, date := start_date }
         end_reading := { value := p.1, date := p.2 } }]
    else []
  else []

def meterScan : List String → List MeterReading
  | [] => []
  | l :: ls => meterBlock l ls ++ meterScan ls

/-! ## Section 5: billing details (`_extract_billing_details`, lines 154-186) -/

/-- One loop iteration of the billing pass: an `if`/`elif` chain.  The
three numeric-gated markers update the local buffer `(bp, r, c)` only when
the following line contains a digit; `Net Cost`, `VAT @` and
`Total Amount Due` write into the record directly. -/
def billStep (acc : Option String × Option String × Option String)
    (d : BillingDetails) (l : String) (ls : List String) :
    (Option String × Option String × Option String) × BillingDetails :=
  if pyIn "Billing Period" l && !ls.isEmpty then
    let val := pyStrip (ls.headD "")
    (if pyHasDigit val then (some val, acc.2.1, acc.2.2) else acc, d)
  else if pyIn "Cost per kWh" l && !ls.isEmpty then
    let val := pyStrip (ls.headD "")
    (if pyHasDigit val then (acc.1, some val, acc.2.2) else acc, d)
  else if pyIn "Total Consumption" l && !ls.isEmpty then
    let val := pyStrip (ls.headD "")
    (if pyHasDigit val then (acc.1, acc.2.1, some val) else acc, d)
  else if pyIn "Net Cost" l && !ls.isEmpty then
    (acc, { d with net_cost := some (pyStrip (ls.headD "")) })
  else if pyIn "VAT @" l then
    let v := pyStrip (((pySplit ((pySplit l "VAT @").getLastD "") "%").headD "")) ++ "%"
    (acc, { d with vat := some v })
  else if pyIn "Total Amount Due" l && !ls.isEmpty then
    (acc, { d with total := some (pyStrip (ls.headD "")) })
  else (acc, d)

def billLoop (acc : Option String × Option String × Option String)
    (d : BillingDetails) :
    List String → (Option String × Option String × Option String) × BillingDetails
  | [] => (acc, d)
  | l :: ls =>
    let s := billStep acc d l ls
    billLoop s.1 s.2 ls

/-- The trailing merge of `_extract_billing_details`: the buffered locals
are written into the record when truthy (non-`None` and nonempty). -/
def billMergeField (v : Option String) : Option String :=
  match v with
  | some s => if s = "" then none else some s
  | none => none

def billingDetailsOf (lines : List String) : BillingDetails :=
  let r := billLoop (none, none, none)
    { period := none, rate := none, consumption := none
      net_cost := none, vat := none, total := none } lines
  { r.2 with
    period := billMergeField r.1.1
    rate := billMergeField r.1.2.1
    consumption := billMergeField r.1.2.2 }

/-! ## Section 6: payment details (`_extract_payment_details`, lines 188-196) -/

def payStep (d : PaymentDetails) (l : String) (ls : List String) : PaymentDetails :=
  if pyIn "Account Name" l && !ls.isEmpty then
    { d with account_name := some (pyStrip (ls.headD "")) }
  else if pyIn "Bank Sort Code" l && !ls.isEmpty then
    { d with sort_code := some (pyStrip (ls.headD "")) }
  else if pyIn "Account Number" l && !ls.isEmpty then
    { d with account_number := some (pyStrip (ls.headD "")) }
  else d

def payScan (d : PaymentDetails) : List String → PaymentDetails
  | [] => d
  | l :: ls => payScan (payStep d l ls) ls

def paymentDetailsOf (lines : List String) : PaymentDetails :=
  payScan { account_name := none, sort_code := none, account_number := none } lines

/-! ## Top level: `extract_structured_data` (source lines 60-152).

The body is pure and total (every index access is guarded), so the
`except` arm that would set `extraction_error` is unreachable; in the
embedding `extraction_error` is always `none`. -/

def extract_structured_data (content : String) : InvoiceRecord :=
  if pyStrip content = "" then emptyRecord
  else
    let lines := normalize content
    { company_info := companyInfoOf lines
      customer_info := customerInfoOf lines
      invoice_details := invoiceDetailsOf lines
      meter_readings := meterScan lines
      billing_details := billingDetailsOf lines
      payment_details := paymentDetailsOf lines
      extraction_error := none }

/-! ## Reference descriptions of the marker checks (for the last-match-wins
claims).

Each `elif` chain of the source is summarized, per recorded field, by a
"fires" predicate (the branch at line `l`, with remainder `ls`, actually
writes the field) and a value function.  `lastHit` then expresses the
specification's "last match wins" reading: the value written by the final
firing occurrence. -/

/-- The trimmed following line, the value recorded by most marker checks
(`lines[i + 1].strip()`). -/
def nextVal (_l : String) (ls : List String) : String :=
  pyStrip (ls.headD "")

/-- The value recorded by the `"VAT @"` check:
`line.split("VAT @")[-1].split("%", 1)[0].strip() + "%"`. -/
def vatVal (l : String) (_ls : List String) : String :=
  pyStrip ((pySplit ((pySplit l "VAT @").getLastD "") "%").headD "") ++ "%"

def firesInvNumber (l : String) (ls : List String) : Bool :=
  pyIn "Invoice Number:" l && !ls.isEmpty

def firesInvDate (l : String) (ls : List String) : Bool :=
  !firesInvNumber l ls && (pyIn "Invoice Date:" l && !ls.isEmpty)

def firesInvDue (l : String) (ls : List String) : Bool :=
  !firesInvNumber l ls && !(pyIn "Invoice Date:" l && !ls.isEmpty) &&
    (pyIn "Payment Due Date:" l && !ls.isEmpty)

def firesAccName (l : String) (ls : List String) : Bool :=
  pyIn "Account Name" l && !ls.isEmpty

def firesSortCode (l : String) (ls : List String) : Bool :=
  !firesAccName l ls && (pyIn "Bank Sort Code" l && !ls.isEmpty)

def firesAccNumber (l : String) (ls : List String) : Bool :=
  !firesAccName l ls && !(pyIn "Bank Sort Code" l && !ls.isEmpty) &&
    (pyIn "Account Number" l && !ls.isEmpty)

def condBP (l : String) (ls : List String) : Bool :=
  pyIn "Billing Period" l && !ls.isEmpty

def condCPK (l : String) (ls : List String) : Bool :=
  pyIn "Cost per kWh" l && !ls.isEmpty

def condTC (l : String) (ls : List String) : Bool :=
  pyIn "Total Consumption" l && !ls.isEmpty

def condNC (l : String) (ls : List String) : Bool :=
  pyIn "Net Cost" l && !ls.isEmpty

def condVA (l : String) (_ls : List String) : Bool :=
  pyIn "VAT @" l

def condTAD (l : String) (ls : List String) : Bool :=
  pyIn "Total Amount Due" l && !ls.isEmpty

/-- The `"Billing Period"` branch writes only when the next line holds a
digit. -/
def firesPeriod (l : String) (ls : List String) : Bool :=
  condBP l ls && pyHasDigit (nextVal l ls)

def firesRate (l : String) (ls : List String) : Bool :=
  !condBP l ls && condCPK l ls && pyHasDigit (nextVal l ls)

def firesCons (l : String) (ls : List String) : Bool :=
  !condBP l ls && !condCPK l ls && condTC l ls && pyHasDigit (nextVal l ls)

def firesNetCost (l : String) (ls : List String) : Bool :=
  !condBP l ls && !condCPK l ls && !condTC l ls && condNC l ls

def firesVat (l : String) (ls : List String) : Bool :=
  !condBP l ls && !condCPK l ls && !condTC l ls && !condNC l ls && condVA l ls

def firesTotal (l : String) (ls : List String) : Bool :=
  !condBP l ls && !condCPK l ls && !condTC l ls && !condNC l ls &&
    !condVA l ls && condTAD l ls

/-- Modelled from the spec: "Multiple matches overwrite earlier ones (last
match wins)".  The value recorded by the final firing occurrence of a
marker check over the line sequence, or `none` when it never fires. -/
def lastHit (P : String → List String → Bool) (V : String → List String → String) :
    List String → Option String
  | [] => none
  | l :: ls =>
    match lastHit P V ls with
    | some v => some v
    | none => if P l ls then some (V l ls) else none

/-- Prefer the first operand when present (overwrite semantics folded from
the right). -/
def mergeOpt (n o : Option String) : Option String :=
  match n with
  | some v => some v
  | none => o

/-! ## Lemmas about the string primitives and normalization -/

theorem head?_dropWhile_false {α : Type} {p : α → Bool} {l : List α} {c : α}
    (h : (l.dropWhile p).head? = some c) : p c = false := by
  have t := List.head?_dropWhile_not p l
  rw [h] at t
  exact t

theorem getLast?_dropWhile_ne {α : Type} {p : α → Bool} (m : List α)
    (h : m.dropWhile p ≠ []) : (m.dropWhile p).getLast? = m.getLast? := by
  induction m with
  | nil => simp at h
  | cons x xs ih =>
    by_cases hp : p x = true
    · rw [List.dropWhile_cons_of_pos hp] at h ⊢
      cases xs with
      | nil => simp [List.dropWhile] at h
      | cons b bs =>
        rw [ih h]
        exact (List.getLast?_cons_cons).symm
    · rw [List.dropWhile_cons_of_neg hp]

theorem stripList_of_ends {l : List Char}
    (h1 : ∀ c, l.head? = some c → pyIsSpace c = false)
    (h2 : ∀ c, l.getLast? = some c → pyIsSpace c = false) :
    stripList l = l := by
  cases l with
  | nil => rfl
  | cons x xs =>
    have hx : pyIsSpace x = false := h1 x rfl
    unfold stripList
    rw [List.dropWhile_cons_of_neg (by simp [hx])]
    cases hrev : (x :: xs).reverse with
    | nil => simp at hrev
    | cons y ys =>
      have hy : pyIsSpace y = false := by
        apply h2
        rw [← List.head?_reverse, hrev]
        rfl
      rw [List.dropWhile_cons_of_neg (by simp [hy]), ← hrev,
        List.reverse_reverse]

theorem stripList_idem (l : List Char) : stripList (stripList l) = stripList l := by
  apply stripList_of_ends
  · intro c hc
    unfold stripList at hc
    rw [List.head?_reverse] at hc
    have hne : List.dropWhile pyIsSpace (l.dropWhile pyIsSpace).reverse ≠ [] := by
      intro e
      rw [e] at hc
      simp at hc
    rw [getLast?_dropWhile_ne _ hne, List.getLast?_reverse] at hc
    exact head?_dropWhile_false hc
  · intro c hc
    unfold stripList at hc
    rw [List.getLast?_reverse] at hc
    exact head?_dropWhile_false hc

theorem pyStrip_idem (s : String) : pyStrip (pyStrip s) = pyStrip s := by
  have h : pyStrip s = String.mk (stripList s.toList) := rfl
  rw [h]
  have h2 : pyStrip (String.mk (stripList s.toList)) =
      String.mk (stripList (stripList s.toList)) := rfl
  rw [h2, stripList_idem]

theorem stripList_eq_nil_iff {l : List Char} :
    stripList l = [] ↔ ∀ c ∈ l, pyIsSpace c := by
  unfold stripList
  constructor
  · intro h c hc
    rw [List.reverse_eq_nil_iff, List.dropWhile_eq_nil_iff] at h
    have hsplit := List.takeWhile_append_dropWhile (p := pyIsSpace) (l := l)
    rw [← hsplit] at hc
    rcases List.mem_append.mp hc with h1 | h2
    · exact List.mem_takeWhile_imp h1
    · exact h c (List.mem_reverse.mpr h2)
  · intro h
    have hd : l.dropWhile pyIsSpace = [] := List.dropWhile_eq_nil_iff.mpr h
    simp [hd]

theorem pyStrip_eq_empty_iff {s : String} :
    pyStrip s = "" ↔ ∀ c ∈ s.toList, pyIsSpace c := by
  rw [← stripList_eq_nil_iff]
  constructor
  · intro h
    have := String.ext_iff.mp h
    simpa using this
  · intro h
    apply String.ext
    simpa using h

theorem mem_pySplitAux_chars {sep : List Char} :
    ∀ (fuel : Nat) (s acc part : List Char), part ∈ pySplitAux sep fuel s acc →
      ∀ c ∈ part, c ∈ s ∨ c ∈ acc := by
  intro fuel
  induction fuel with
  | zero =>
    intro s acc part hp c hc
    simp only [pySplitAux, List.mem_singleton] at hp
    subst hp
    rcases List.mem_append.mp hc with h | h
    · exact Or.inr (List.mem_reverse.mp h)
    · exact Or.inl h
  | succ n ih =>
    intro s acc part hp c hc
    cases s with
    | nil =>
      simp only [pySplitAux, List.mem_singleton] at hp
      subst hp
      exact Or.inr (List.mem_reverse.mp hc)
    | cons x xs =>
      simp only [pySplitAux] at hp
      by_cases hpre : sep.isPrefixOf (x :: xs) = true
      · rw [if_pos hpre] at hp
        rcases List.mem_cons.mp hp with h | h
        · subst h
          exact Or.inr (List.mem_reverse.mp hc)
        · rcases ih _ _ _ h c hc with h1 | h1
          · exact Or.inl (List.mem_of_mem_drop h1)
          · simp at h1
      · rw [if_neg hpre] at hp
        rcases ih _ _ _ hp c hc with h1 | h1
        · exact Or.inl (List.mem_cons_of_mem _ h1)
        · rcases List.mem_cons.mp h1 with h2 | h2
          · subst h2
            exact Or.inl (List.mem_cons_self _ _)
          · exact Or.inr h2

theorem normalize_blank {content : String} (h : pyStrip content = "") :
    normalize content = [] := by
  have hall : ∀ c ∈ content.toList, pyIsSpace c := pyStrip_eq_empty_iff.mp h
  unfold normalize
  rw [List.filter_eq_nil_iff]
  intro a ha
  rcases List.mem_map.mp ha with ⟨part, hpart, rfl⟩
  rcases List.mem_map.mp hpart with ⟨pl, hpl, rfl⟩
  have hchars : ∀ c ∈ pl, pyIsSpace c := by
    intro c hc
    rcases mem_pySplitAux_chars _ _ _ _ hpl c hc with h1 | h1
    · exact hall c h1
    · simp at h1
  have hempty : pyStrip (String.mk pl) = "" := by
    apply pyStrip_eq_empty_iff.mpr
    simpa using hchars
  simp [hempty]

theorem normalize_ne_nil_strip {content : String}
    (h : normalize content ≠ []) : pyStrip content ≠ "" := by
  intro e
  exact h (normalize_blank e)

theorem mem_normalize_strip {content l : String}
    (h : l ∈ normalize content) : pyStrip l = l := by
  unfold normalize at h
  have h2 := List.mem_of_mem_filter h
  rcases List.mem_map.mp h2 with ⟨x, _, rfl⟩
  exact pyStrip_idem x

theorem mem_normalize_ne_empty {content l : String}
    (h : l ∈ normalize content) : l ≠ "" := by
  have := List.of_mem_filter h
  simpa using this

/-- Unfolding of `extract_structured_data` on non-blank input. -/
theorem extract_eq_of_ne_blank {content : String} (h : pyStrip content ≠ "") :
    extract_structured_data content =
      { company_info := companyInfoOf (normalize content)
        customer_info := customerInfoOf (normalize content)
        invoice_details := invoiceDetailsOf (normalize content)
        meter_readings := meterScan (normalize content)
        billing_details := billingDetailsOf (normalize content)
        payment_details := paymentDetailsOf (normalize content)
        extraction_error := none } := by
  rw [extract_structured_data, if_neg h]

/-- When no line contains the marker, the scan consumes the whole list and
finds no VAT number. -/
theorem companyScan_no_marker {ls : List String}
    (h : ∀ l ∈ ls, pyIn "VAT No." l = false) :
    companyScan ls = (ls, none) := by
  induction ls with
  | nil => rfl
  | cons l t ih =>
    have hl : pyIn "VAT No." l = false := h l (List.mem_cons_self _ _)
    have ht := ih (fun x hx => h x (List.mem_cons_of_mem _ hx))
    simp [companyScan, hl, ht]

/-! ## Claim C1 -/

/-- C1 (counterexample): on an input with five non-empty lines none of which
contains `"VAT No."`, the returned record nevertheless has a company
address (the last 4 accumulated lines, space-joined), so the claim that
neither `vat_number` nor `address` is present is false. -/
theorem C1_counterexample :
    ((normalize "Alpha\nBravo\nCharlie\nDelta\nEcho").all
        (fun l => !(pyIn "VAT No." l))) = true ∧
    (extract_structured_data "Alpha\nBravo\nCharlie\nDelta\nEcho").company_info.address =
      some "Bravo Charlie Delta Echo" := by
  constructor
  · decide
  · decide

/-- C1 (amended): when no normalized line contains `"VAT No."`, no
`vat_number` is recorded, but `company_info.address` IS recorded whenever
at least one non-empty line exists: it is the space-join of the last four
accumulated lines.  Only an input with no non-empty lines leaves the
address absent. -/
theorem C1_theorem (content : String)
    (h : ∀ l ∈ normalize content, pyIn "VAT No." l = false) :
    (extract_structured_data content).company_info.vat_number = none ∧
    (extract_structured_data content).company_info.address =
      (if normalize content = [] then none
       else some (pyJoinSpace (lastN 4 (normalize content)))) := by
  by_cases hb : pyStrip content = ""
  · have hn := normalize_blank hb
    rw [extract_structured_data, if_pos hb]
    simp [emptyRecord, hn]
  · rw [extract_eq_of_ne_blank hb]
    have hcs := companyScan_no_marker h
    constructor
    · simp [companyInfoOf, hcs]
    · by_cases he : normalize content = [] <;>
        simp [companyInfoOf, companyScan, hcs, he]

/-- C1 (witness): the amended theorem applied to a concrete two-line input. -/
theorem C1_witness :
    (extract_structured_data "Alpha\nBravo").company_info.vat_number = none ∧
    (extract_structured_data "Alpha\nBravo").company_info.address =
      (if normalize "Alpha\nBravo" = [] then none
       else some (pyJoinSpace (lastN 4 (normalize "Alpha\nBravo")))) :=
  C1_theorem "Alpha\nBravo" (by decide)

/-! ## Claim C2 -/

/-- C2 (counterexample): for `"VAT No.: 123456789"` preceded by exactly 4
non-empty lines, the recorded VAT number is `" 123456789"` — with a
leading space — not the claimed `"123456789"`, because the code strips
whitespace before deleting the colon, so the space that followed the colon
survives. -/
theorem C2_counterexample :
    (extract_structured_data "A1\nB2\nC3\nD4\nVAT No.: 123456789").company_info.vat_number =
      some " 123456789" ∧
    (extract_structured_data "A1\nB2\nC3\nD4\nVAT No.: 123456789").company_info.vat_number ≠
      some "123456789" := by
  constructor
  · decide
  · decide

/-- C2 (amended): with `"VAT No.: 123456789"` preceded by exactly 4
non-empty, marker-free lines, `vat_number` is the string `" 123456789"`
(everything after the marker with colons deleted but the post-colon space
kept, since `strip` runs before `replace`), and `address` is the 4
preceding lines joined with single spaces. -/
theorem C2_theorem (content : String) (a b c d : String) (rest : List String)
    (hn : normalize content = a :: b :: c :: d :: "VAT No.: 123456789" :: rest)
    (ha : pyIn "VAT No." a = false) (hb : pyIn "VAT No." b = false)
    (hc : pyIn "VAT No." c = false) (hd : pyIn "VAT No." d = false) :
    (extract_structured_data content).company_info.vat_number = some " 123456789" ∧
    (extract_structured_data content).company_info.address =
      some (pyJoinSpace [a, b, c, d]) := by
  have hne : pyStrip content ≠ "" := normalize_ne_nil_strip (by rw [hn]; simp)
  rw [extract_eq_of_ne_blank hne]
  have hm : pyIn "VAT No." "VAT No.: 123456789" = true := by decide
  have hcs : companyScan (a :: b :: c :: d :: "VAT No.: 123456789" :: rest) =
      ([a, b, c, d], some " 123456789") := by
    simp [companyScan, ha, hb, hc, hd, hm]
    all_goals decide
  constructor
  · simp [companyInfoOf, hn, hcs]
  · simp [companyInfoOf, hn, hcs, lastN]

/-- C2 (witness): the amended theorem applied to a concrete input. -/
theorem C2_witness :
    (extract_structured_data "A1\nB2\nC3\nD4\nVAT No.: 123456789").company_info.vat_number =
      some " 123456789" ∧
    (extract_structured_data "A1\nB2\nC3\nD4\nVAT No.: 123456789").company_info.address =
      some (pyJoinSpace ["A1", "B2", "C3", "D4"]) :=
  C2_theorem "A1\nB2\nC3\nD4\nVAT No.: 123456789" "A1" "B2" "C3" "D4" []
    (by decide) (by decide) (by decide) (by decide) (by decide)

/-! ## Claim C3 -/

/-- C3 (counterexample): on a line containing both `"Invoice Number:"` and
`"Invoice Date:"`, only `number` is recorded from that line; `date` stays
absent, because the checks form an `if`/`elif` chain and are mutually
exclusive on the same line. -/
theorem C3_counterexample :
    pyIn "Invoice Number:" "Invoice Number: Invoice Date:" = true ∧
    pyIn "Invoice Date:" "Invoice Number: Invoice Date:" = true ∧
    (extract_structured_data "Invoice Number: Invoice Date:\nX42").invoice_details.number =
      some "X42" ∧
    (extract_structured_data "Invoice Number: Invoice Date:\nX42").invoice_details.date =
      none := by
  refine ⟨by decide, by decide, by decide, by decide⟩

/-- C3 (amended): the three checks form an `if`/`elif` chain, so at most
one fires per line, with `"Invoice Number:"` taking priority.  On a line
containing `"Invoice Number:"` (with a following line present) the scan
step records only `number` from that line and leaves `date` and `due_date`
untouched, even if the same line also contains `"Invoice Date:"`;
concretely, a line with both markers yields `number` but no `date`. -/
theorem C3_theorem (d : InvoiceDetails) (l : String) (ls : List String)
    (h1 : pyIn "Invoice Number:" l = true) (h2 : ls ≠ []) :
    invoiceScan d (l :: ls) =
      invoiceScan { d with number := some (pyStrip (ls.headD "")) } ls ∧
    (extract_structured_data "Invoice Number: Invoice Date:\nX42").invoice_details =
      { number := some "X42", date := none, due_date := none } := by
  constructor
  · rw [invoiceScan]
    have hs : invStep d l ls = { d with number := some (pyStrip (ls.headD "")) } := by
      have he : ls.isEmpty = false := by
        cases ls with
        | nil => exact absurd rfl h2
        | cons x xs => rfl
      simp [invStep, h1, he]
    rw [hs]
  · decide

/-- C3 (witness): the amended theorem applied at a concrete line carrying
both markers. -/
theorem C3_witness :
    invoiceScan { number := none, date := none, due_date := none }
        ("Invoice Number: Invoice Date:" :: ["X42"]) =
      invoiceScan
        { number := some (pyStrip (["X42"].headD "")), date := none,
          due_date := none } ["X42"] ∧
    (extract_structured_data "Invoice Number: Invoice Date:\nX42").invoice_details =
      { number := some "X42", date := none, due_date := none } :=
  C3_theorem { number := none, date := none, due_date := none }
    "Invoice Number: Invoice Date:" ["X42"] (by decide) (by decide)

/-! ## Claim C4 -/

/-- C4: the embedding of `extract_structured_data` is a total function, so
it never fails and by the shape of `InvoiceRecord` always returns all six
top-level sections; on blank (empty or whitespace-only) input it returns
the record with every section empty and no `extraction_error`, and
`extraction_error` is `none` for every input (the pure body cannot
raise). -/
theorem C4_theorem (content : String) :
    (extract_structured_data content).extraction_error = none ∧
    (pyStrip content = "" → extract_structured_data content = emptyRecord) := by
  constructor
  · by_cases hb : pyStrip content = ""
    · rw [extract_structured_data, if_pos hb]
      rfl
    · rw [extract_eq_of_ne_blank hb]
  · intro hb
    rw [extract_structured_data, if_pos hb]

/-- C4 (witness): the theorem applied to a whitespace-only input. -/
theorem C4_witness :
    (extract_structured_data " \n\t ").extraction_error = none ∧
    extract_structured_data " \n\t " = emptyRecord :=
  ⟨( C4_theorem " \n\t ").1, ( C4_theorem " \n\t ").2 (by decide)⟩

/-! ## Claim C9 -/

/-- C9: when the first normalized line already contains `"VAT No."`, the
address buffer is empty and `if company_address:` is false, so no
`address` field is emitted (not even an empty string), while `vat_number`
may still be recorded from that same first line (shown on a concrete
input). -/
theorem C9_theorem (content : String) (l : String) (ls : List String)
    (hn : normalize content = l :: ls)
    (hm : pyIn "VAT No." l = true) :
    (extract_structured_data content).company_info.address = none ∧
    (extract_structured_data "VAT No. 77\nBody").company_info =
      { address := none, vat_number := some "77" } := by
  refine ⟨?_, by decide⟩
  have hne : pyStrip content ≠ "" := normalize_ne_nil_strip (by rw [hn]; simp)
  rw [extract_eq_of_ne_blank hne]
  simp [companyInfoOf, hn, companyScan, hm]

/-- C9 (witness): the theorem applied to an input whose first line holds
the marker. -/
theorem C9_witness :
    (extract_structured_data "VAT No. 77\nBody").company_info.address = none ∧
    (extract_structured_data "VAT No. 77\nBody").company_info =
      { address := none, vat_number := some "77" } :=
  C9_theorem "VAT No. 77\nBody" "VAT No. 77" ["Body"] (by decide) (by decide)

/-! ## Meter-reading lemmas -/

theorem meterScan_mem_append (pre : List String) {ls : List String} {r : MeterReading}
    (h : r ∈ meterScan ls) : r ∈ meterScan (pre ++ ls) := by
  induction pre with
  | nil => simpa using h
  | cons x xs ih =>
    rw [List.cons_append, meterScan]
    exact List.mem_append.mpr (Or.inr ih)

/-- A candidate block with no month abbreviation in `end_value` is emitted
verbatim (no date-bleed correction). -/
theorem meterBlock_no_month (l0 l1 l2 l3 l4 l5 : String) (rest : List String)
    (hd : pyIsDigit l0 = true)
    (hty : pyLower (pyStrip l1) = "generation" ∨ pyLower (pyStrip l1) = "export")
    (hmonth : monthAbbrevs.any (fun m => pyIn m (pyStrip l4)) = false) :
    meterBlock l0 (l1 :: l2 :: l3 :: l4 :: l5 :: rest) =
      [{ type := pyLower (pyStrip l1), serial_number := l0,
         start_reading := { value := pyStrip l2, date := pyStrip l3 },
         end_reading := { value := pyStrip l4, date := pyStrip l5 } }] := by
  have hlen : decide (5 ≤ (l1 :: l2 :: l3 :: l4 :: l5 :: rest).length) = true := by
    simp [List.length_cons]
  have hguard : (pyLower (pyStrip l1) = "generation" ||
      pyLower (pyStrip l1) = "export") = true := by
    rcases hty with h | h <;> simp [h]
  simp [meterBlock, hd, hlen, hmonth, hguard]

/-- A candidate block whose `end_value` contains a month abbreviation but
no space splits into a single part, so the correction is skipped and the
block is emitted verbatim. -/
theorem meterBlock_month_nosplit (l0 l1 l2 l3 l4 l5 : String) (rest : List String)
    (hd : pyIsDigit l0 = true)
    (hty : pyLower (pyStrip l1) = "generation" ∨ pyLower (pyStrip l1) = "export")
    (hmonth : monthAbbrevs.any (fun m => pyIn m (pyStrip l4)) = true)
    (hsp : (pyStrip l4).toList.contains ' ' = false) :
    meterBlock l0 (l1 :: l2 :: l3 :: l4 :: l5 :: rest) =
      [{ type := pyLower (pyStrip l1), serial_number := l0,
         start_reading := { value := pyStrip l2, date := pyStrip l3 },
         end_reading := { value := pyStrip l4, date := pyStrip l5 } }] := by
  have hlen : decide (5 ≤ (l1 :: l2 :: l3 :: l4 :: l5 :: rest).length) = true := by
    simp [List.length_cons]
  have hguard : (pyLower (pyStrip l1) = "generation" ||
      pyLower (pyStrip l1) = "export") = true := by
    rcases hty with h | h <;> simp [h]
  have hsp' : ' ' ∉ (pyStrip l4).data := by simpa using hsp
  have hsplit : pySplitOnce (pyStrip l4) = [pyStrip l4] := by
    simp [pySplitOnce, hsp']
  simp [meterBlock, hd, hlen, hmonth, hguard, hsplit]

/-- Every entry a candidate block emits carries type `"generation"` or
`"export"`. -/
theorem meterBlock_types {l : String} {ls : List String} {r : MeterReading}
    (h : r ∈ meterBlock l ls) :
    r.type = "generation" ∨ r.type = "export" := by
  simp only [meterBlock] at h
  split at h
  · split at h
    · rename_i hg
      rcases List.mem_singleton.mp h with rfl
      simpa using hg
    · simp at h
  · simp at h

theorem meterScan_types {ls : List String} {r : MeterReading}
    (h : r ∈ meterScan ls) :
    r.type = "generation" ∨ r.type = "export" := by
  induction ls with
  | nil => simp [meterScan] at h
  | cons l t ih =>
    rw [meterScan] at h
    rcases List.mem_append.mp h with h1 | h1
    · exact meterBlock_types h1
    · exact ih h1

/-! ## Claim C5 -/

/-- C5: a digit-only line at index `i` with at least 5 following lines,
whose meter-type line lower-cases to `"generation"` or `"export"` and
whose `end_value` line carries no 3-letter month abbreviation, contributes
a `meter_readings` entry with the six lines at their fixed offsets. -/
theorem C5_theorem (content : String) (pre : List String)
    (l0 l1 l2 l3 l4 l5 : String) (rest : List String)
    (hn : normalize content = pre ++ l0 :: l1 :: l2 :: l3 :: l4 :: l5 :: rest)
    (hd : pyIsDigit l0 = true)
    (hty : pyLower l1 = "generation" ∨ pyLower l1 = "export")
    (hmonth : monthAbbrevs.any (fun m => pyIn m l4) = false) :
    ({ type := pyLower l1, serial_number := l0,
       start_reading := { value := l2, date := l3 },
       end_reading := { value := l4, date := l5 } } : MeterReading) ∈
      (extract_structured_data content).meter_readings := by
  have s1 : pyStrip l1 = l1 := mem_normalize_strip (by rw [hn]; simp)
  have s2 : pyStrip l2 = l2 := mem_normalize_strip (by rw [hn]; simp)
  have s3 : pyStrip l3 = l3 := mem_normalize_strip (by rw [hn]; simp)
  have s4 : pyStrip l4 = l4 := mem_normalize_strip (by rw [hn]; simp)
  have s5 : pyStrip l5 = l5 := mem_normalize_strip (by rw [hn]; simp)
  have hne : pyStrip content ≠ "" := normalize_ne_nil_strip (by rw [hn]; simp)
  rw [extract_eq_of_ne_blank hne]
  show _ ∈ meterScan (normalize content)
  rw [hn]
  apply meterScan_mem_append
  rw [meterScan]
  apply List.mem_append.mpr
  left
  rw [meterBlock_no_month l0 l1 l2 l3 l4 l5 rest hd
    (by rw [s1]; exact hty) (by rw [s4]; exact hmonth)]
  simp [s1, s2, s3, s4, s5]

/-- C5 (witness): the theorem applied to the concrete generation block of
the specification. -/
theorem C5_witness :
    ({ type := pyLower "Generation", serial_number := "12345",
       start_reading := { value := "1000", date := "2024-02-20" },
       end_reading := { value := "2000", date := "2024-03-20" } } : MeterReading) ∈
      (extract_structured_data
        "12345\nGeneration\n1000\n2024-02-20\n2000\n2024-03-20\nEnd").meter_readings :=
  C5_theorem "12345\nGeneration\n1000\n2024-02-20\n2000\n2024-03-20\nEnd" []
    "12345" "Generation" "1000" "2024-02-20" "2000" "2024-03-20" ["End"]
    (by decide) (by decide) (Or.inl (by decide)) (by decide)

/-! ## Claim C6 -/

/-- C6: every `meter_readings` entry of any returned record has type
exactly `"generation"` or `"export"`; in particular, the concrete 6-line
candidate block with meter type `"Import"` contributes no entry. -/
theorem C6_theorem (content : String) (r : MeterReading)
    (h : r ∈ (extract_structured_data content).meter_readings) :
    (r.type = "generation" ∨ r.type = "export") ∧
    (extract_structured_data
        "12345\nImport\n1000\n2024-02-20\n2000\n2024-03-20\nEnd").meter_readings = [] := by
  refine ⟨?_, by decide⟩
  by_cases hb : pyStrip content = ""
  · rw [extract_structured_data, if_pos hb] at h
    simp [emptyRecord] at h
  · rw [extract_eq_of_ne_blank hb] at h
    exact meterScan_types h

/-- C6 (witness): the theorem applied at a concrete record entry. -/
theorem C6_witness :
    (({ type := "generation", serial_number := "12345",
        start_reading := { value := "1000", date := "2024-02-20" },
        end_reading := { value := "2000", date := "2024-03-20" } } : MeterReading).type =
          "generation" ∨
      ({ type := "generation", serial_number := "12345",
         start_reading := { value := "1000", date := "2024-02-20" },
         end_reading := { value := "2000", date := "2024-03-20" } } : MeterReading).type =
          "export") ∧
    (extract_structured_data
        "12345\nImport\n1000\n2024-02-20\n2000\n2024-03-20\nEnd").meter_readings = [] :=
  C6_theorem "12345\nGeneration\n1000\n2024-02-20\n2000\n2024-03-20\nEnd"
    { type := "generation", serial_number := "12345",
      start_reading := { value := "1000", date := "2024-02-20" },
      end_reading := { value := "2000", date := "2024-03-20" } }
    (by decide)

/-! ## Claim C10 -/

/-- C10: in the date-bleed correction, when `Lines[i+4]` contains a month
abbreviation but no space, the single-part split leaves the block
unchanged: the emitted entry keeps `end_reading.value = Lines[i+4]` and
`end_reading.date = Lines[i+5]`. -/
theorem C10_theorem (content : String) (pre : List String)
    (l0 l1 l2 l3 l4 l5 : String) (rest : List String)
    (hn : normalize content = pre ++ l0 :: l1 :: l2 :: l3 :: l4 :: l5 :: rest)
    (hd : pyIsDigit l0 = true)
    (hty : pyLower l1 = "generation" ∨ pyLower l1 = "export")
    (hmonth : monthAbbrevs.any (fun m => pyIn m l4) = true)
    (hsp : l4.toList.contains ' ' = false) :
    ({ type := pyLower l1, serial_number := l0,
       start_reading := { value := l2, date := l3 },
       end_reading := { value := l4, date := l5 } } : MeterReading) ∈
      (extract_structured_data content).meter_readings := by
  have s1 : pyStrip l1 = l1 := mem_normalize_strip (by rw [hn]; simp)
  have s2 : pyStrip l2 = l2 := mem_normalize_strip (by rw [hn]; simp)
  have s3 : pyStrip l3 = l3 := mem_normalize_strip (by rw [hn]; simp)
  have s4 : pyStrip l4 = l4 := mem_normalize_strip (by rw [hn]; simp)
  have s5 : pyStrip l5 = l5 := mem_normalize_strip (by rw [hn]; simp)
  have hne : pyStrip content ≠ "" := normalize_ne_nil_strip (by rw [hn]; simp)
  rw [extract_eq_of_ne_blank hne]
  show _ ∈ meterScan (normalize content)
  rw [hn]
  apply meterScan_mem_append
  rw [meterScan]
  apply List.mem_append.mpr
  left
  rw [meterBlock_month_nosplit l0 l1 l2 l3 l4 l5 rest hd
    (by rw [s1]; exact hty) (by rw [s4]; exact hmonth) (by rw [s4]; exact hsp)]
  simp [s1, s2, s3, s4, s5]

/-- C10 (witness): the theorem applied to a block whose `end_value`
`"2000Mar"` holds a month abbreviation but no space. -/
theorem C10_witness :
    ({ type := pyLower "Export", serial_number := "12345",
       start_reading := { value := "1000", date := "2024-02-20" },
       end_reading := { value := "2000Mar", date := "Xline" } } : MeterReading) ∈
      (extract_structured_data
        "12345\nExport\n1000\n2024-02-20\n2000Mar\nXline\nEnd").meter_readings :=
  C10_theorem "12345\nExport\n1000\n2024-02-20\n2000Mar\nXline\nEnd" []
    "12345" "Export" "1000" "2024-02-20" "2000Mar" "Xline" ["End"]
    (by decide) (by decide) (Or.inr (by decide)) (by decide) (by decide)

/-! ## Last-match-wins characterizations -/

theorem mergeOpt_none (x : Option String) : mergeOpt x none = x := by
  cases x <;> rfl

theorem lastHit_some {P : String → List String → Bool}
    {V : String → List String → String} {ls : List String} {v : String}
    (h : lastHit P V ls = some v) :
    ∃ l ls', P l ls' = true ∧ V l ls' = v := by
  induction ls with
  | nil => simp [lastHit] at h
  | cons l t ih =>
    rw [lastHit] at h
    cases hl : lastHit P V t with
    | some w =>
      rw [hl] at h
      exact ih (hl.trans h)
    | none =>
      rw [hl] at h
      by_cases hp : P l t = true
      · rw [if_pos hp] at h
        exact ⟨l, t, hp, Option.some_injective _ h⟩
      · rw [if_neg hp] at h
        exact absurd h (Option.some_ne_none v).symm

theorem invStep_number (d : InvoiceDetails) (l : String) (ls : List String) :
    (invStep d l ls).number =
      (if firesInvNumber l ls then some (nextVal l ls) else d.number) := by
  unfold invStep firesInvNumber nextVal
  split_ifs <;> simp_all

theorem invStep_date (d : InvoiceDetails) (l : String) (ls : List String) :
    (invStep d l ls).date =
      (if firesInvDate l ls then some (nextVal l ls) else d.date) := by
  unfold invStep firesInvDate firesInvNumber nextVal
  split_ifs <;> simp_all

theorem invStep_due (d : InvoiceDetails) (l : String) (ls : List String) :
    (invStep d l ls).due_date =
      (if firesInvDue l ls then some (nextVal l ls) else d.due_date) := by
  unfold invStep firesInvDue firesInvNumber nextVal
  split_ifs <;> simp_all

theorem invoiceScan_number (ls : List String) (d : InvoiceDetails) :
    (invoiceScan d ls).number =
      mergeOpt (lastHit firesInvNumber nextVal ls) d.number := by
  induction ls generalizing d with
  | nil => simp [invoiceScan, lastHit, mergeOpt]
  | cons l t ih =>
    rw [invoiceScan, ih, lastHit]
    cases hl : lastHit firesInvNumber nextVal t with
    | some v => simp [mergeOpt]
    | none =>
      simp only [mergeOpt, invStep_number]
      by_cases hf : firesInvNumber l t = true <;> simp [hf]

theorem invoiceScan_date (ls : List String) (d : InvoiceDetails) :
    (invoiceScan d ls).date =
      mergeOpt (lastHit firesInvDate nextVal ls) d.date := by
  induction ls generalizing d with
  | nil => simp [invoiceScan, lastHit, mergeOpt]
  | cons l t ih =>
    rw [invoiceScan, ih, lastHit]
    cases hl : lastHit firesInvDate nextVal t with
    | some v => simp [mergeOpt]
    | none =>
      simp only [mergeOpt, invStep_date]
      by_cases hf : firesInvDate l t = true <;> simp [hf]

theorem invoiceScan_due (ls : List String) (d : InvoiceDetails) :
    (invoiceScan d ls).due_date =
      mergeOpt (lastHit firesInvDue nextVal ls) d.due_date := by
  induction ls generalizing d with
  | nil => simp [invoiceScan, lastHit, mergeOpt]
  | cons l t ih =>
    rw [invoiceScan, ih, lastHit]
    cases hl : lastHit firesInvDue nextVal t with
    | some v => simp [mergeOpt]
    | none =>
      simp only [mergeOpt, invStep_due]
      by_cases hf : firesInvDue l t = true <;> simp [hf]

theorem payStep_name (d : PaymentDetails) (l : String) (ls : List String) :
    (payStep d l ls).account_name =
      (if firesAccName l ls then some (nextVal l ls) else d.account_name) := by
  unfold payStep firesAccName nextVal
  split_ifs <;> simp_all

theorem payStep_sort (d : PaymentDetails) (l : String) (ls : List String) :
    (payStep d l ls).sort_code =
      (if firesSortCode l ls then some (nextVal l ls) else d.sort_code) := by
  unfold payStep firesSortCode firesAccName nextVal
  split_ifs <;> simp_all

theorem payStep_number (d : PaymentDetails) (l : String) (ls : List String) :
    (payStep d l ls).account_number =
      (if firesAccNumber l ls then some (nextVal l ls) else d.account_number) := by
  unfold payStep firesAccNumber firesAccName nextVal
  split_ifs <;> simp_all

theorem payScan_name (ls : List String) (d : PaymentDetails) :
    (payScan d ls).account_name =
      mergeOpt (lastHit firesAccName nextVal ls) d.account_name := by
  induction ls generalizing d with
  | nil => simp [payScan, lastHit, mergeOpt]
  | cons l t ih =>
    rw [payScan, ih, lastHit]
    cases hl : lastHit firesAccName nextVal t with
    | some v => simp [mergeOpt]
    | none =>
      simp only [mergeOpt, payStep_name]
      by_cases hf : firesAccName l t = true <;> simp [hf]

theorem payScan_sort (ls : List String) (d : PaymentDetails) :
    (payScan d ls).sort_code =
      mergeOpt (lastHit firesSortCode nextVal ls) d.sort_code := by
  induction ls generalizing d with
  | nil => simp [payScan, lastHit, mergeOpt]
  | cons l t ih =>
    rw [payScan, ih, lastHit]
    cases hl : lastHit firesSortCode nextVal t with
    | some v => simp [mergeOpt]
    | none =>
      simp only [mergeOpt, payStep_sort]
      by_cases hf : firesSortCode l t = true <;> simp [hf]

theorem payScan_number (ls : List String) (d : PaymentDetails) :
    (payScan d ls).account_number =
      mergeOpt (lastHit firesAccNumber nextVal ls) d.account_number := by
  induction ls generalizing d with
  | nil => simp [payScan, lastHit, mergeOpt]
  | cons l t ih =>
    rw [payScan, ih, lastHit]
    cases hl : lastHit firesAccNumber nextVal t with
    | some v => simp [mergeOpt]
    | none =>
      simp only [mergeOpt, payStep_number]
      by_cases hf : firesAccNumber l t = true <;> simp [hf]

theorem billStep_bp (acc : Option String × Option String × Option String)
    (d : BillingDetails) (l : String) (ls : List String) :
    (billStep acc d l ls).1.1 =
      (if firesPeriod l ls then some (nextVal l ls) else acc.1) := by
  by_cases he : ls = []
  · subst he
    simp only [billStep, firesPeriod, condBP, condCPK, condTC, condNC, condVA,
      condTAD, nextVal, List.isEmpty_nil, Bool.not_true, Bool.and_false]
    split_ifs <;> simp_all
  · have he' : ls.isEmpty = false := by
      cases ls with
      | nil => exact absurd rfl he
      | cons a t => rfl
    simp only [billStep, firesPeriod, condBP, condCPK, condTC, condNC, condVA,
      condTAD, nextVal, he', Bool.not_false, Bool.and_true]
    split_ifs <;> simp_all

theorem billStep_rate (acc : Option String × Option String × Option String)
    (d : BillingDetails) (l : String) (ls : List String) :
    (billStep acc d l ls).1.2.1 =
      (if firesRate l ls then some (nextVal l ls) else acc.2.1) := by
  by_cases he : ls = []
  · subst he
    simp only [billStep, firesRate, condBP, condCPK, condTC, condNC, condVA,
      condTAD, nextVal, List.isEmpty_nil, Bool.not_true, Bool.and_false]
    split_ifs <;> simp_all
  · have he' : ls.isEmpty = false := by
      cases ls with
      | nil => exact absurd rfl he
      | cons a t => rfl
    simp only [billStep, firesRate, condBP, condCPK, condTC, condNC, condVA,
      condTAD, nextVal, he', Bool.not_false, Bool.and_true]
    split_ifs <;> simp_all

theorem billStep_cons (acc : Option String × Option String × Option String)
    (d : BillingDetails) (l : String) (ls : List String) :
    (billStep acc d l ls).1.2.2 =
      (if firesCons l ls then some (nextVal l ls) else acc.2.2) := by
  by_cases he : ls = []
  · subst he
    simp only [billStep, firesCons, condBP, condCPK, condTC, condNC, condVA,
      condTAD, nextVal, List.isEmpty_nil, Bool.not_true, Bool.and_false]
    split_ifs <;> simp_all
  · have he' : ls.isEmpty = false := by
      cases ls with
      | nil => exact absurd rfl he
      | cons a t => rfl
    simp only [billStep, firesCons, condBP, condCPK, condTC, condNC, condVA,
      condTAD, nextVal, he', Bool.not_false, Bool.and_true]
    split_ifs <;> simp_all

theorem billStep_net (acc : Option String × Option String × Option String)
    (d : BillingDetails) (l : String) (ls : List String) :
    (billStep acc d l ls).2.net_cost =
      (if firesNetCost l ls then some (nextVal l ls) else d.net_cost) := by
  by_cases he : ls = []
  · subst he
    simp only [billStep, firesNetCost, condBP, condCPK, condTC, condNC, condVA,
      condTAD, nextVal, List.isEmpty_nil, Bool.not_true, Bool.and_false]
    split_ifs <;> simp_all
  · have he' : ls.isEmpty = false := by
      cases ls with
      | nil => exact absurd rfl he
      | cons a t => rfl
    simp only [billStep, firesNetCost, condBP, condCPK, condTC, condNC, condVA,
      condTAD, nextVal, he', Bool.not_false, Bool.and_true]
    split_ifs <;> simp_all

theorem billStep_vat (acc : Option String × Option String × Option String)
    (d : BillingDetails) (l : String) (ls : List String) :
    (billStep acc d l ls).2.vat =
      (if firesVat l ls then some (vatVal l ls) else d.vat) := by
  by_cases he : ls = []
  · subst he
    simp only [billStep, firesVat, condBP, condCPK, condTC, condNC, condVA,
      condTAD, vatVal, List.isEmpty_nil, Bool.not_true, Bool.and_false]
    split_ifs <;> simp_all
  · have he' : ls.isEmpty = false := by
      cases ls with
      | nil => exact absurd rfl he
      | cons a t => rfl
    simp only [billStep, firesVat, condBP, condCPK, condTC, condNC, condVA,
      condTAD, vatVal, he', Bool.not_false, Bool.and_true]
    split_ifs <;> simp_all

theorem billStep_total (acc : Option String × Option String × Option String)
    (d : BillingDetails) (l : String) (ls : List String) :
    (billStep acc d l ls).2.total =
      (if firesTotal l ls then some (nextVal l ls) else d.total) := by
  by_cases he : ls = []
  · subst he
    simp only [billStep, firesTotal, condBP, condCPK, condTC, condNC, condVA,
      condTAD, nextVal, List.isEmpty_nil, Bool.not_true, Bool.and_false]
    split_ifs <;> simp_all
  · have he' : ls.isEmpty = false := by
      cases ls with
      | nil => exact absurd rfl he
      | cons a t => rfl
    simp only [billStep, firesTotal, condBP, condCPK, condTC, condNC, condVA,
      condTAD, nextVal, he', Bool.not_false, Bool.and_true]
    split_ifs <;> simp_all

theorem billLoop_bp (ls : List String)
    (acc : Option String × Option String × Option String) (d : BillingDetails) :
    (billLoop acc d ls).1.1 = mergeOpt (lastHit firesPeriod nextVal ls) acc.1 := by
  induction ls generalizing acc d with
  | nil => simp [billLoop, lastHit, mergeOpt]
  | cons l t ih =>
    simp only [billLoop]
    rw [ih, lastHit]
    cases hl : lastHit firesPeriod nextVal t with
    | some v => simp [mergeOpt]
    | none =>
      simp only [mergeOpt, billStep_bp]
      by_cases hf : firesPeriod l t = true <;> simp [hf]

theorem billLoop_rate (ls : List String)
    (acc : Option String × Option String × Option String) (d : BillingDetails) :
    (billLoop acc d ls).1.2.1 = mergeOpt (lastHit firesRate nextVal ls) acc.2.1 := by
  induction ls generalizing acc d with
  | nil => simp [billLoop, lastHit, mergeOpt]
  | cons l t ih =>
    simp only [billLoop]
    rw [ih, lastHit]
    cases hl : lastHit firesRate nextVal t with
    | some v => simp [mergeOpt]
    | none =>
      simp only [mergeOpt, billStep_rate]
      by_cases hf : firesRate l t = true <;> simp [hf]

theorem billLoop_cons (ls : List String)
    (acc : Option String × Option String × Option String) (d : BillingDetails) :
    (billLoop acc d ls).1.2.2 = mergeOpt (lastHit firesCons nextVal ls) acc.2.2 := by
  induction ls generalizing acc d with
  | nil => simp [billLoop, lastHit, mergeOpt]
  | cons l t ih =>
    simp only [billLoop]
    rw [ih, lastHit]
    cases hl : lastHit firesCons nextVal t with
    | some v => simp [mergeOpt]
    | none =>
      simp only [mergeOpt, billStep_cons]
      by_cases hf : firesCons l t = true <;> simp [hf]

theorem billLoop_net (ls : List String)
    (acc : Option String × Option String × Option String) (d : BillingDetails) :
    (billLoop acc d ls).2.net_cost =
      mergeOpt (lastHit firesNetCost nextVal ls) d.net_cost := by
  induction ls generalizing acc d with
  | nil => simp [billLoop, lastHit, mergeOpt]
  | cons l t ih =>
    simp only [billLoop]
    rw [ih, lastHit]
    cases hl : lastHit firesNetCost nextVal t with
    | some v => simp [mergeOpt]
    | none =>
      simp only [mergeOpt, billStep_net]
      by_cases hf : firesNetCost l t = true <;> simp [hf]

theorem billLoop_vat (ls : List String)
    (acc : Option String × Option String × Option String) (d : BillingDetails) :
    (billLoop acc d ls).2.vat =
      mergeOpt (lastHit firesVat vatVal ls) d.vat := by
  induction ls generalizing acc d with
  | nil => simp [billLoop, lastHit, mergeOpt]
  | cons l t ih =>
    simp only [billLoop]
    rw [ih, lastHit]
    cases hl : lastHit firesVat vatVal t with
    | some v => simp [mergeOpt]
    | none =>
      simp only [mergeOpt, billStep_vat]
      by_cases hf : firesVat l t = true <;> simp [hf]

theorem billLoop_total (ls : List String)
    (acc : Option String × Option String × Option String) (d : BillingDetails) :
    (billLoop acc d ls).2.total =
      mergeOpt (lastHit firesTotal nextVal ls) d.total := by
  induction ls generalizing acc d with
  | nil => simp [billLoop, lastHit, mergeOpt]
  | cons l t ih =>
    simp only [billLoop]
    rw [ih, lastHit]
    cases hl : lastHit firesTotal nextVal t with
    | some v => simp [mergeOpt]
    | none =>
      simp only [mergeOpt, billStep_total]
      by_cases hf : firesTotal l t = true <;> simp [hf]

theorem invoiceDetailsOf_number (ls : List String) :
    (invoiceDetailsOf ls).number = lastHit firesInvNumber nextVal ls := by
  unfold invoiceDetailsOf
  rw [invoiceScan_number]
  simp [mergeOpt_none]

theorem invoiceDetailsOf_date (ls : List String) :
    (invoiceDetailsOf ls).date = lastHit firesInvDate nextVal ls := by
  unfold invoiceDetailsOf
  rw [invoiceScan_date]
  simp [mergeOpt_none]

theorem invoiceDetailsOf_due (ls : List String) :
    (invoiceDetailsOf ls).due_date = lastHit firesInvDue nextVal ls := by
  unfold invoiceDetailsOf
  rw [invoiceScan_due]
  simp [mergeOpt_none]

theorem paymentDetailsOf_name (ls : List String) :
    (paymentDetailsOf ls).account_name = lastHit firesAccName nextVal ls := by
  unfold paymentDetailsOf
  rw [payScan_name]
  simp [mergeOpt_none]

theorem paymentDetailsOf_sort (ls : List String) :
    (paymentDetailsOf ls).sort_code = lastHit firesSortCode nextVal ls := by
  unfold paymentDetailsOf
  rw [payScan_sort]
  simp [mergeOpt_none]

theorem paymentDetailsOf_number (ls : List String) :
    (paymentDetailsOf ls).account_number = lastHit firesAccNumber nextVal ls := by
  unfold paymentDetailsOf
  rw [payScan_number]
  simp [mergeOpt_none]

theorem pyHasDigit_empty : pyHasDigit "" = false := by decide

theorem billMergeField_of_digits {P : String → List String → Bool}
    {V : String → List String → String} {ls : List String}
    (hd : ∀ l ls', P l ls' = true → pyHasDigit (V l ls') = true) :
    billMergeField (lastHit P V ls) = lastHit P V ls := by
  cases hl : lastHit P V ls with
  | none => rfl
  | some v =>
    obtain ⟨l, ls', hP, hV⟩ := lastHit_some hl
    have hdg : pyHasDigit v = true := by
      rw [← hV]
      exact hd l ls' hP
    have hvne : v ≠ "" := by
      intro e
      rw [e, pyHasDigit_empty] at hdg
      exact Bool.false_ne_true hdg
    simp [billMergeField, hvne]

theorem firesPeriod_digit (l : String) (ls : List String)
    (h : firesPeriod l ls = true) : pyHasDigit (nextVal l ls) = true := by
  unfold firesPeriod at h
  simp only [Bool.and_eq_true] at h
  exact h.2

theorem firesRate_digit (l : String) (ls : List String)
    (h : firesRate l ls = true) : pyHasDigit (nextVal l ls) = true := by
  unfold firesRate at h
  simp only [Bool.and_eq_true] at h
  exact h.2

theorem firesCons_digit (l : String) (ls : List String)
    (h : firesCons l ls = true) : pyHasDigit (nextVal l ls) = true := by
  unfold firesCons at h
  simp only [Bool.and_eq_true] at h
  exact h.2

theorem billingDetailsOf_period (ls : List String) :
    (billingDetailsOf ls).period = lastHit firesPeriod nextVal ls := by
  unfold billingDetailsOf
  simp only [billLoop_bp, mergeOpt_none]
  exact billMergeField_of_digits firesPeriod_digit

theorem billingDetailsOf_rate (ls : List String) :
    (billingDetailsOf ls).rate = lastHit firesRate nextVal ls := by
  unfold billingDetailsOf
  simp only [billLoop_rate, mergeOpt_none]
  exact billMergeField_of_digits firesRate_digit

theorem billingDetailsOf_cons (ls : List String) :
    (billingDetailsOf ls).consumption = lastHit firesCons nextVal ls := by
  unfold billingDetailsOf
  simp only [billLoop_cons, mergeOpt_none]
  exact billMergeField_of_digits firesCons_digit

theorem billingDetailsOf_net (ls : List String) :
    (billingDetailsOf ls).net_cost = lastHit firesNetCost nextVal ls := by
  unfold billingDetailsOf
  simp only [billLoop_net, mergeOpt_none]

theorem billingDetailsOf_vat (ls : List String) :
    (billingDetailsOf ls).vat = lastHit firesVat vatVal ls := by
  unfold billingDetailsOf
  simp only [billLoop_vat, mergeOpt_none]

theorem billingDetailsOf_total (ls : List String) :
    (billingDetailsOf ls).total = lastHit firesTotal nextVal ls := by
  unfold billingDetailsOf
  simp only [billLoop_total, mergeOpt_none]

/-! ## Claim C8 -/

/-- C8: every overwriting marker check follows last-match-wins semantics.
Each of the twelve overwritable fields of the invoice-metadata, billing
and payment scanners equals `lastHit fires value Lines`: the value derived
from the final index at which its branch fires (with each occurrence
required to have its following line where the branch demands one), and
`none` when it never fires.  In particular, when a check fires at more
than one index the stored field is the last occurrence's value, not the
first. -/
theorem C8_theorem (content : String) :
    (extract_structured_data content).invoice_details.number =
        lastHit firesInvNumber nextVal (normalize content) ∧
    (extract_structured_data content).invoice_details.date =
        lastHit firesInvDate nextVal (normalize content) ∧
    (extract_structured_data content).invoice_details.due_date =
        lastHit firesInvDue nextVal (normalize content) ∧
    (extract_structured_data content).billing_details.period =
        lastHit firesPeriod nextVal (normalize content) ∧
    (extract_structured_data content).billing_details.rate =
        lastHit firesRate nextVal (normalize content) ∧
    (extract_structured_data content).billing_details.consumption =
        lastHit firesCons nextVal (normalize content) ∧
    (extract_structured_data content).billing_details.net_cost =
        lastHit firesNetCost nextVal (normalize content) ∧
    (extract_structured_data content).billing_details.vat =
        lastHit firesVat vatVal (normalize content) ∧
    (extract_structured_data content).billing_details.total =
        lastHit firesTotal nextVal (normalize content) ∧
    (extract_structured_data content).payment_details.account_name =
        lastHit firesAccName nextVal (normalize content) ∧
    (extract_structured_data content).payment_details.sort_code =
        lastHit firesSortCode nextVal (normalize content) ∧
    (extract_structured_data content).payment_details.account_number =
        lastHit firesAccNumber nextVal (normalize content) := by
  by_cases hb : pyStrip content = ""
  · have hn := normalize_blank hb
    rw [extract_structured_data, if_pos hb, hn]
    simp [emptyRecord, lastHit]
  · rw [extract_eq_of_ne_blank hb]
    exact ⟨invoiceDetailsOf_number _, invoiceDetailsOf_date _,
      invoiceDetailsOf_due _, billingDetailsOf_period _, billingDetailsOf_rate _,
      billingDetailsOf_cons _, billingDetailsOf_net _, billingDetailsOf_vat _,
      billingDetailsOf_total _, paymentDetailsOf_name _, paymentDetailsOf_sort _,
      paymentDetailsOf_number _⟩

/-! ## Claim C7 -/

/-- C7 (counterexample): "Net Cost" does NOT take the following line
unconditionally.  On the line `"Net Cost per kWh"` (which contains the
marker `"Net Cost"`, with a following line present) the earlier `elif`
branch for `"Cost per kWh"` intercepts, so the following line is stored as
`rate` and `net_cost` stays absent. -/
theorem C7_counterexample :
    pyIn "Net Cost" "Net Cost per kWh" = true ∧
    (extract_structured_data "Net Cost per kWh\n7").billing_details.net_cost = none ∧
    (extract_structured_data "Net Cost per kWh\n7").billing_details.rate = some "7" := by
  refine ⟨by decide, by decide, by decide⟩

/-- C7 (amended): `period`, `rate` and `consumption` are recorded only
from a following line that contains a digit (any recorded value contains a
digit, and a digit-free follower such as `"N/A"` leaves the field absent);
`"Net Cost"` and `"Total Amount Due"` apply no digit check — their branch
stores `lines[i + 1].strip()` whenever it is reached with a following line
present — but each branch is reached only when no earlier marker of the
`elif` chain matches the same line. -/
theorem C7_theorem :
    (∀ content v,
      (extract_structured_data content).billing_details.period = some v →
        pyHasDigit v = true) ∧
    (∀ content v,
      (extract_structured_data content).billing_details.rate = some v →
        pyHasDigit v = true) ∧
    (∀ content v,
      (extract_structured_data content).billing_details.consumption = some v →
        pyHasDigit v = true) ∧
    (∀ acc d l ls, pyIn "Billing Period" l = false → pyIn "Cost per kWh" l = false →
      pyIn "Total Consumption" l = false → pyIn "Net Cost" l = true → ls ≠ [] →
      (billStep acc d l ls).2.net_cost = some (pyStrip (ls.headD ""))) ∧
    (∀ acc d l ls, pyIn "Billing Period" l = false → pyIn "Cost per kWh" l = false →
      pyIn "Total Consumption" l = false → pyIn "Net Cost" l = false →
      pyIn "VAT @" l = false → pyIn "Total Amount Due" l = true → ls ≠ [] →
      (billStep acc d l ls).2.total = some (pyStrip (ls.headD ""))) ∧
    (extract_structured_data "Total Consumption\nN/A").billing_details.consumption =
      none ∧
    (extract_structured_data "Net Cost\nN/A").billing_details.net_cost = some "N/A" := by
  have hdigit : ∀ (P : String → List String → Bool)
      (hP : ∀ l ls', P l ls' = true → pyHasDigit (nextVal l ls') = true)
      (content : String) (v : String),
      lastHit P nextVal (normalize content) = some v → pyHasDigit v = true := by
    intro P hP content v h
    obtain ⟨l, ls', hp, hv⟩ := lastHit_some h
    rw [← hv]
    exact hP l ls' hp
  refine ⟨?_, ?_, ?_, ?_, ?_, by decide, by decide⟩
  · intro content v h
    by_cases hb : pyStrip content = ""
    · rw [extract_structured_data, if_pos hb] at h
      simp [emptyRecord] at h
    · rw [extract_eq_of_ne_blank hb] at h
      rw [billingDetailsOf_period] at h
      exact hdigit firesPeriod firesPeriod_digit content v h
  · intro content v h
    by_cases hb : pyStrip content = ""
    · rw [extract_structured_data, if_pos hb] at h
      simp [emptyRecord] at h
    · rw [extract_eq_of_ne_blank hb] at h
      rw [billingDetailsOf_rate] at h
      exact hdigit firesRate firesRate_digit content v h
  · intro content v h
    by_cases hb : pyStrip content = ""
    · rw [extract_structured_data, if_pos hb] at h
      simp [emptyRecord] at h
    · rw [extract_eq_of_ne_blank hb] at h
      rw [billingDetailsOf_cons] at h
      exact hdigit firesCons firesCons_digit content v h
  · intro acc d l ls h1 h2 h3 h4 h5
    have hf : firesNetCost l ls = true := by
      simp [firesNetCost, condBP, condCPK, condTC, condNC, h1, h2, h3, h4, h5]
    rw [billStep_net, if_pos hf]
    rfl
  · intro acc d l ls h1 h2 h3 h4 h5 h6 h7
    have hf : firesTotal l ls = true := by
      simp [firesTotal, condBP, condCPK, condTC, condNC, condVA, condTAD,
        h1, h2, h3, h4, h5, h6, h7]
    rw [billStep_total, if_pos hf]
    rfl

/-- C7 (witness): the digit invariant applied to a concrete recorded
period, and the unconditional `"Net Cost"` branch applied at a digit-free
following line. -/
theorem C7_witness :
    pyHasDigit "7" = true ∧
    (billStep (none, none, none)
        { period := none, rate := none, consumption := none,
          net_cost := none, vat := none, total := none }
        "Net Cost" ["N/A"]).2.net_cost = some (pyStrip (["N/A"].headD "")) :=
  ⟨ C7_theorem.1 "Billing Period\n7" "7" (by decide),
   C7_theorem.2.2.2.1 (none, none, none)
     { period := none, rate := none, consumption := none,
       net_cost := none, vat := none, total := none }
     "Net Cost" ["N/A"]
     (by decide) (by decide) (by decide) (by decide) (by decide)⟩

end InvoiceExtract
